import Mathlib

/-!
Verification of the jxl-rs-polyfill front-end surfaces.

We shallowly embed the JavaScript sources (src/polyfill-core.js,
src/jxl-polyfill.js, src/auto-lite.js and the auto.js glue generated by
scripts/bundle.js).  JavaScript strings are modelled as `List Char`
(`String.toLowerCase` as a character-wise lowering, which agrees with JS on
the ASCII inputs the predicates inspect), nullable strings as
`Option (List Char)`, `Map` as an association list, and the asynchronous
environment (fetch, the external WASM decoder, `URL.createObjectURL`) as an
explicit oracle record.  Effects that the claims observe (network fetches,
decoder invocations, console logging) are reported as an explicit event
trace.
-/

set_option linter.unusedVariables false

/-- Character-wise lowering, modelling `String.prototype.toLowerCase` on the
ASCII-relevant inputs. -/
def jsToLower (s : List Char) : List Char := s.map Char.toLower

/-- Modelling `String.prototype.startsWith` on character lists. -/
def charsStartsWith : List Char → List Char → Bool
  | _, [] => true
  | [], _ :: _ => false
  | c :: cs, p :: ps => (c == p) && charsStartsWith cs ps

/-- Modelling `String.prototype.includes` on character lists. -/
def charsIncludes : List Char → List Char → Bool
  | [], pat => pat.isEmpty
  | c :: cs, pat => charsStartsWith (c :: cs) pat || charsIncludes cs pat

/-- Modelling `String.prototype.endsWith` on character lists. -/
def charsEndsWith (s pat : List Char) : Bool :=
  charsStartsWith s.reverse pat.reverse

/-- The target extension `.jxl` (lower case). -/
def extJxl : List Char := ['.', 'j', 'x', 'l']

/-- The extension followed by a query delimiter, `.jxl?`. -/
def extJxlQ : List Char := ['.', 'j', 'x', 'l', '?']

/-- The extension followed by a fragment delimiter, `.jxl#`. -/
def extJxlH : List Char := ['.', 'j', 'x', 'l', '#']

namespace PolyfillCore

/-- From src/polyfill-core.js, `isJxlUrl` (lines 6-10): false on a falsy
argument (`null` or the empty string), otherwise checks the lower-cased url
for a `.jxl` suffix or an embedded `.jxl?` / `.jxl#`. -/
def isJxlUrl (url : Option (List Char)) : Bool :=
  match url with
  | none => false
  | some u =>
    if u.isEmpty then false
    else
      let lower := jsToLower u
      charsEndsWith lower extJxl || charsIncludes lower extJxlQ ||
        charsIncludes lower extJxlH

end PolyfillCore

namespace JXLPolyfill

/-- From src/jxl-polyfill.js, `JXLPolyfill.isJxlUrl` (lines 192-196); the body
is textually identical to the polyfill-core version. -/
def isJxlUrl (url : Option (List Char)) : Bool :=
  match url with
  | none => false
  | some u =>
    if u.isEmpty then false
    else
      let lower := jsToLower u
      charsEndsWith lower extJxl || charsIncludes lower extJxlQ ||
        charsIncludes lower extJxlH

end JXLPolyfill

namespace AutoLite

/-- From src/auto-lite.js, `isJxlUrl` (lines 24-28): unlike the other two
copies it checks only for the suffix and `.jxl?`, not `.jxl#`. -/
def isJxlUrl (url : Option (List Char)) : Bool :=
  match url with
  | none => false
  | some u =>
    if u.isEmpty then false
    else
      let lower := jsToLower u
      charsEndsWith lower extJxl || charsIncludes lower extJxlQ

end AutoLite

/-- The specification's wording of the candidate predicate (§4.1/§8): the
lower-cased url ends with the target extension, or the extension occurs
immediately followed by `?` or `#`. -/
def candidateSpec (u : List Char) : Prop :=
  extJxl <:+ jsToLower u ∨
    ∃ a c b, jsToLower u = a ++ extJxl ++ c :: b ∧ (c = '?' ∨ c = '#')

theorem charsStartsWith_iff (s p : List Char) :
    charsStartsWith s p = true ↔ p <+: s := by
  induction s generalizing p with
  | nil =>
    cases p with
    | nil => simp [charsStartsWith]
    | cons q qs => simp [charsStartsWith]
  | cons c cs ih =>
    cases p with
    | nil => simp [charsStartsWith]
    | cons q qs =>
      simp only [charsStartsWith, Bool.and_eq_true, beq_iff_eq, ih,
        List.cons_prefix_cons]
      constructor
      · rintro ⟨h1, h2⟩; exact ⟨h1.symm, h2⟩
      · rintro ⟨h1, h2⟩; exact ⟨h1.symm, h2⟩

theorem charsEndsWith_iff (s p : List Char) :
    charsEndsWith s p = true ↔ p <:+ s := by
  rw [charsEndsWith, charsStartsWith_iff, List.reverse_prefix]

theorem charsIncludes_iff (s p : List Char) :
    charsIncludes s p = true ↔ p <:+: s := by
  induction s with
  | nil =>
    simp [charsIncludes, List.isEmpty_iff]
  | cons c cs ih =>
    simp only [charsIncludes, Bool.or_eq_true, charsStartsWith_iff, ih,
      List.infix_cons_iff]

theorem charsIncludes_ext_delim_iff (s p : List Char) (c : Char) :
    charsIncludes s (p ++ [c]) = true ↔ ∃ a b, s = a ++ p ++ c :: b := by
  rw [charsIncludes_iff]
  constructor
  · rintro ⟨a, b, h⟩
    exact ⟨a, b, by simpa [List.append_assoc] using h.symm⟩
  · rintro ⟨a, b, h⟩
    exact ⟨a, b, by simp [h, List.append_assoc]⟩

/-- Claim C4: `isJxlUrl` returns false for null/empty input and otherwise is
true iff, case-insensitively, the url ends with `.jxl` or that extension is
immediately followed by `?` or `#` somewhere in the url. -/
theorem C4_isJxlUrl_characterization :
    PolyfillCore.isJxlUrl none = false ∧
    PolyfillCore.isJxlUrl (some []) = false ∧
    ∀ u : List Char, PolyfillCore.isJxlUrl (some u) = true ↔ candidateSpec u := by
  refine ⟨rfl, rfl, fun u => ?_⟩
  unfold PolyfillCore.isJxlUrl candidateSpec
  by_cases hu : u = []
  · subst hu
    simp only [List.isEmpty_nil, if_true]
    constructor
    · intro h; cases h
    · rintro (h | ⟨a, c, b, h, _⟩)
      · simp [jsToLower, List.suffix_nil, extJxl] at h
      · simp only [jsToLower, List.map_nil] at h
        exact absurd h.symm (by simp)
  · have : u.isEmpty = false := by simpa [List.isEmpty_iff] using hu
    simp only [this, Bool.false_eq_true, if_false]
    simp only [Bool.or_eq_true]
    have hq : extJxlQ = extJxl ++ ['?'] := rfl
    have hh : extJxlH = extJxl ++ ['#'] := rfl
    rw [charsEndsWith_iff, hq, hh, charsIncludes_ext_delim_iff,
      charsIncludes_ext_delim_iff]
    constructor
    · rintro ((h | ⟨a, b, h⟩) | ⟨a, b, h⟩)
      · exact Or.inl h
      · exact Or.inr ⟨a, '?', b, h, Or.inl rfl⟩
      · exact Or.inr ⟨a, '#', b, h, Or.inr rfl⟩
    · rintro (h | ⟨a, c, b, h, (hc | hc)⟩)
      · exact Or.inl (Or.inl h)
      · subst hc; exact Or.inl (Or.inr ⟨a, b, h⟩)
      · subst hc; exact Or.inr ⟨a, b, h⟩

/-- Claim C10, counterexample: on `"a.jxl#f"` the polyfill-core predicate
returns true while the auto-lite predicate returns false, so the three
shipped copies do not compute the same function. -/
theorem C10_counterexample :
    PolyfillCore.isJxlUrl (some ['a', '.', 'j', 'x', 'l', '#', 'f']) = true ∧
    AutoLite.isJxlUrl (some ['a', '.', 'j', 'x', 'l', '#', 'f']) = false := by
  decide

/-- Claim C10 (amended): the polyfill-core and jxl-polyfill copies of the
candidate predicate agree on every input; the auto-lite copy agrees with them
on every input whose lower-cased form does not contain `.jxl#`, and differs
exactly by omitting that fragment clause. -/
theorem C10_amended_predicate_agreement :
    (∀ u : Option (List Char), PolyfillCore.isJxlUrl u = JXLPolyfill.isJxlUrl u) ∧
    ∀ u : List Char, charsIncludes (jsToLower u) extJxlH = false →
      AutoLite.isJxlUrl (some u) = PolyfillCore.isJxlUrl (some u) := by
  constructor
  · intro u; rfl
  · intro u h
    unfold AutoLite.isJxlUrl PolyfillCore.isJxlUrl
    by_cases hu : u.isEmpty
    · simp [hu]
    · simp only [Bool.not_eq_true] at hu
      simp [hu, h]

/-- Claim C10 amended theorem, witness: instantiation at `"a.jxl"`. -/
theorem C10_amended_witness :
    AutoLite.isJxlUrl (some ['a', '.', 'j', 'x', 'l']) =
      PolyfillCore.isJxlUrl (some ['a', '.', 'j', 'x', 'l']) :=
  C10_amended_predicate_agreement.2 ['a', '.', 'j', 'x', 'l'] (by decide)

/-! ## Environment and effect model -/

/-- A fetch response, with the fields the code reads. -/
structure Response where
  ok : Bool
  status : Nat
  bytes : List Nat
deriving DecidableEq

/-- Observable effects of a pipeline run: network fetches, invocations of the
decoder, and console output. -/
inductive Event where
  | fetchEv : List Char → Event
  | decodeEv : Event
  | consoleWarn : Event
  | consoleError : Event
  | consoleLog : Event
deriving DecidableEq

/-- The asynchronous environment: `fetch` (an `Except.error` models a network
rejection), the external WASM decoder `decode_jxl_to_png`, and
`URL.createObjectURL`. -/
structure Env where
  fetch : List Char → Except String Response
  decode : List Nat → Except String (List Nat)
  createObjectURL : List Nat → List Char
  nativeSupport : Bool

/-- `Map.prototype.get`, on an association-list model of `Map`. -/
def mapGet (m : List (List Char × List Char)) (k : List Char) :
    Option (List Char) :=
  match m with
  | [] => none
  | (k₀, v) :: rest => if k₀ = k then some v else mapGet rest k

/-- `Map.prototype.has`. -/
def mapHas (m : List (List Char × List Char)) (k : List Char) : Bool :=
  (mapGet m k).isSome

/-- `Map.prototype.set`: update in place if the key exists, append otherwise. -/
def mapSet (m : List (List Char × List Char)) (k v : List Char) :
    List (List Char × List Char) :=
  match m with
  | [] => [(k, v)]
  | (k₀, v₀) :: rest =>
    if k₀ = k then (k₀, v) :: rest else (k₀, v₀) :: mapSet rest k v

namespace PolyfillCore

/-- Module-level state of polyfill-core.js (lines 3-4): the result cache and
the stats counters. -/
structure CoreState where
  cache : List (List Char × List Char)
  imagesConverted : Nat
  cacheHits : Nat
deriving DecidableEq

/-- From src/polyfill-core.js, `decodeJxl` (lines 12-23): throws
`'WASM not initialized'` when `window.__jxl_wasm` is absent, and otherwise
still throws — the body ends in an unconditional
`throw new Error('Direct WASM decoding not yet implemented in auto.js - use
npm package')` without ever calling the installed decoder. -/
def decodeJxl (wasmInstalled : Bool) (jxlBytes : List Nat) :
    Except String (List Nat) :=
  if !wasmInstalled then Except.error "WASM not initialized"
  else
    Except.error "Direct WASM decoding not yet implemented in auto.js - use npm package"

/-- From src/polyfill-core.js, `fetchAndDecode` (lines 25-47): cache hit
short-circuits with a `cacheHits` increment; otherwise fetch, check
`response.ok`, decode via `decodeJxl`, create an object url, cache it and
increment `imagesConverted`.  Any throw propagates with the state unchanged. -/
def fetchAndDecode (env : Env) (wasmInstalled : Bool) (s : CoreState)
    (url : List Char) : Except String (List Char) × CoreState × List Event :=
  if mapHas s.cache url then
    (Except.ok ((mapGet s.cache url).getD []),
      { s with cacheHits := s.cacheHits + 1 }, [])
  else
    match env.fetch url with
    | Except.error e => (Except.error e, s, [Event.fetchEv url])
    | Except.ok resp =>
      if !resp.ok then
        (Except.error ("Fetch failed: " ++ toString resp.status), s,
          [Event.fetchEv url])
      else
        match decodeJxl wasmInstalled resp.bytes with
        | Except.error e => (Except.error e, s, [Event.fetchEv url, Event.decodeEv])
        | Except.ok pngData =>
          let objectUrl := env.createObjectURL pngData
          (Except.ok objectUrl,
            { s with cache := mapSet s.cache url objectUrl,
                     imagesConverted := s.imagesConverted + 1 },
            [Event.fetchEv url, Event.decodeEv])

end PolyfillCore

namespace AutoBundle

/-- Dispatcher state of the auto.js glue generated by scripts/bundle.js
(lines 140-143 and 207-208): the worker handle, readiness and fallback flags,
the pending-request table (modelled by its set of ids), and the main-thread
fallback initialization flags (`window.__jxl_wasm` presence). -/
structure WorkerState where
  workerPresent : Bool
  workerReady : Bool
  useWorker : Bool
  pendingRequests : List (List Char)
  mainThreadWasmReady : Bool
  jxlWasmInstalled : Bool
deriving DecidableEq

/-- The module-level initial state. -/
def initialState : WorkerState :=
  { workerPresent := false, workerReady := false, useWorker := true,
    pendingRequests := [], mainThreadWasmReady := false,
    jxlWasmInstalled := false }

/-- From scripts/bundle.js, the `worker.onerror` handler (lines 170-174): logs
a console warning, sets `useWorker = false` and drops the worker object.
The second component lists the ids of the pending requests the handler
rejects: it rejects none, and it performs no fallback initialization. -/
def workerOnError (s : WorkerState) :
    WorkerState × List (List Char) × List Event :=
  ({ s with useWorker := false, workerPresent := false }, [],
    [Event.consoleWarn])

/-- From scripts/bundle.js, `initMainThreadWasm` (lines 210-226): initializes
the WASM module on the calling thread and installs `window.__jxl_wasm`. -/
def initMainThreadWasm (s : WorkerState) : WorkerState :=
  { s with mainThreadWasmReady := true, jxlWasmInstalled := true }

end AutoBundle

/-- A concrete environment where every fetch succeeds with bytes `[1, 2, 3]`
and the external decoder is the identity. -/
def envOk : Env :=
  { fetch := fun _ => Except.ok { ok := true, status := 200, bytes := [1, 2, 3] },
    decode := fun b => Except.ok b,
    createObjectURL := fun _ => ['b', 'l', 'o', 'b'],
    nativeSupport := false }

/-- Claim C1 (code-bug evidence): `decodeJxl` never succeeds — in particular,
after the inline fallback has initialized (`initMainThreadWasm` has installed
`window.__jxl_wasm`), a decode request on the main-thread path still rejects
with the stub error and `fetchAndDecode` leaves the cache and counters
unchanged, contradicting the spec's claim that the inline path completes the
decode successfully. -/
theorem C1_inline_decode_never_succeeds :
    (∀ (w : Bool) (b : List Nat), ∃ e, PolyfillCore.decodeJxl w b = Except.error e) ∧
    (AutoBundle.initMainThreadWasm AutoBundle.initialState).jxlWasmInstalled = true ∧
    PolyfillCore.decodeJxl
        (AutoBundle.initMainThreadWasm AutoBundle.initialState).jxlWasmInstalled
        [1, 2, 3] =
      Except.error "Direct WASM decoding not yet implemented in auto.js - use npm package" ∧
    PolyfillCore.fetchAndDecode envOk
        (AutoBundle.initMainThreadWasm AutoBundle.initialState).jxlWasmInstalled
        { cache := [], imagesConverted := 0, cacheHits := 0 }
        ['p', '.', 'j', 'x', 'l'] =
      (Except.error "Direct WASM decoding not yet implemented in auto.js - use npm package",
        { cache := [], imagesConverted := 0, cacheHits := 0 },
        [Event.fetchEv ['p', '.', 'j', 'x', 'l'], Event.decodeEv]) := by
  refine ⟨fun w b => ?_, rfl, rfl, rfl⟩
  cases w
  · exact ⟨_, rfl⟩
  · exact ⟨_, rfl⟩

/-- A dispatcher state with one request pending, as at the moment of a worker
channel failure. -/
def pendingState : AutoBundle.WorkerState :=
  { workerPresent := true, workerReady := true, useWorker := true,
    pendingRequests := [['r', '1']], mainThreadWasmReady := false,
    jxlWasmInstalled := false }

/-- Claim C2, counterexample: with request `"r1"` pending at the moment of a
worker channel failure, the `onerror` handler rejects nothing — the rejected
list is empty and `"r1"` is still pending afterwards — contradicting the
claim that every pending request is rejected. -/
theorem C2_counterexample :
    (AutoBundle.workerOnError pendingState).2.1 = [] ∧
    (AutoBundle.workerOnError pendingState).1.pendingRequests = [['r', '1']] ∧
    pendingState.pendingRequests ≠ [] :=
  ⟨rfl, rfl, by decide⟩

/-- Claim C2 (amended): on a worker channel failure the handler irreversibly
disables the worker path (`useWorker := false`, worker dropped) and only logs
a console warning — the failure is not surfaced to the page author — but it
rejects none of the requests pending at the moment of failure (the pending
table is untouched) and performs no fallback initialization itself. -/
theorem C2_amended_worker_failure_effect :
    ∀ s : AutoBundle.WorkerState,
      (AutoBundle.workerOnError s).1.pendingRequests = s.pendingRequests ∧
      (AutoBundle.workerOnError s).2.1 = [] ∧
      (AutoBundle.workerOnError s).1.useWorker = false ∧
      (AutoBundle.workerOnError s).1.workerPresent = false ∧
      (AutoBundle.workerOnError s).1.mainThreadWasmReady = s.mainThreadWasmReady ∧
      (AutoBundle.workerOnError s).1.jxlWasmInstalled = s.jxlWasmInstalled ∧
      (AutoBundle.workerOnError s).2.2 = [Event.consoleWarn] :=
  fun s => ⟨rfl, rfl, rfl, rfl, rfl, rfl, rfl⟩

/-! ## The jxl-polyfill.js per-reference pipeline -/

namespace JXLPolyfill

/-- Constructor options of `JXLPolyfill` (jxl-polyfill.js lines 107-117). -/
structure Options where
  patchImageConstructor : Bool
  handleCSSBackgrounds : Bool
  handleSourceElements : Bool
  handleSVGElements : Bool
  cacheDecoded : Bool
  showLoadingState : Bool
  verbose : Bool
deriving DecidableEq

/-- The option defaults (lines 108-116). -/
def defaultOptions : Options :=
  { patchImageConstructor := true, handleCSSBackgrounds := true,
    handleSourceElements := true, handleSVGElements := true,
    cacheDecoded := true, showLoadingState := false, verbose := false }

/-- Instance state of a `JXLPolyfill` (lines 119-127): the result cache and
the stats counters. -/
structure PState where
  cache : List (List Char × List Char)
  imagesConverted : Nat
  bytesSaved : Nat
  cacheHits : Nat
deriving DecidableEq

/-- `this.log` (lines 130-134): a console line only under `verbose`. -/
def logEvents (opts : Options) : List Event :=
  if opts.verbose then [Event.consoleLog] else []

/-- From jxl-polyfill.js, `decodeJxlFromUrl` (lines 83-91) composed with
`decodeJxlToPng` (lines 57-60): fetch the url, throw unless `response.ok`,
then decode the bytes with the external WASM decoder; the resulting PNG blob
is modelled by its bytes. -/
def decodeJxlFromUrl (env : Env) (url : List Char) :
    Except String (List Nat) × List Event :=
  match env.fetch url with
  | Except.error e => (Except.error e, [Event.fetchEv url])
  | Except.ok resp =>
    if !resp.ok then
      (Except.error ("Failed to fetch " ++ String.mk url ++ ": " ++
        toString resp.status), [Event.fetchEv url])
    else
      match env.decode resp.bytes with
      | Except.error e => (Except.error e, [Event.fetchEv url, Event.decodeEv])
      | Except.ok png => (Except.ok png, [Event.fetchEv url, Event.decodeEv])

/-- From jxl-polyfill.js, `getCachedOrDecode` (lines 198-213): under
`cacheDecoded`, a cache hit increments `cacheHits` and returns the cached
handle; otherwise decode from the url, create an object url, cache it under
`cacheDecoded`, and increment `imagesConverted`. -/
def getCachedOrDecode (env : Env) (opts : Options) (s : PState)
    (url : List Char) : Except String (List Char) × PState × List Event :=
  if opts.cacheDecoded && mapHas s.cache url then
    (Except.ok ((mapGet s.cache url).getD []),
      { s with cacheHits := s.cacheHits + 1 }, [])
  else
    match decodeJxlFromUrl env url with
    | (Except.error e, evs) => (Except.error e, s, evs)
    | (Except.ok png, evs) =>
      let objectUrl := env.createObjectURL png
      let s₁ :=
        if opts.cacheDecoded then
          { s with cache := mapSet s.cache url objectUrl }
        else s
      (Except.ok objectUrl,
        { s₁ with imagesConverted := s₁.imagesConverted + 1 }, evs)

/-- An `<img>` element: its `src` attribute, the `data-jxl-processed` marker
and the inline opacity the loading state toggles. -/
structure Img where
  src : Option (List Char)
  jxlProcessed : Bool
  opacity : Option (List Char)
deriving DecidableEq

/-- The synchronous prefix of `processImgElement` (jxl-polyfill.js lines
253-263), up to its first suspension point (`await this.getCachedOrDecode`):
the candidate and marker checks, then the marker is set and, under
`showLoadingState`, the opacity is dimmed.  The middle component is `none`
when the element is skipped and `some src` when the pipeline proceeds. -/
def processImgSync (opts : Options) (img : Img) :
    Img × Option (List Char) × List Event :=
  if !isJxlUrl img.src then (img, none, [])
  else if img.jxlProcessed then (img, none, [])
  else
    let img₁ := { img with jxlProcessed := true }
    let img₂ :=
      if opts.showLoadingState then
        { img₁ with opacity := some ['0', '.', '5'] }
      else img₁
    (img₂, img.src, logEvents opts)

/-- The continuation of `processImgElement` after the suspension point (lines
265-274): await `getCachedOrDecode`, assign the object url to `img.src` on
success, log and swallow the error on failure, and in the `finally` block
restore the opacity under `showLoadingState`. -/
def processImgCont (env : Env) (opts : Options) (img : Img) (s : PState)
    (src : List Char) : Img × PState × List Event :=
  match getCachedOrDecode env opts s src with
  | (Except.ok pngUrl, s₁, evs) =>
    let img₁ := { img with src := some pngUrl }
    let img₂ :=
      if opts.showLoadingState then { img₁ with opacity := some [] } else img₁
    (img₂, s₁, evs)
  | (Except.error _, s₁, evs) =>
    let img₂ :=
      if opts.showLoadingState then { img with opacity := some [] } else img
    (img₂, s₁, evs ++ [Event.consoleError])

/-- `processImgElement` (lines 253-275) run without interleaving: the
synchronous prefix directly followed by its continuation. -/
def processImgElement (env : Env) (opts : Options) (img : Img) (s : PState) :
    Img × PState × List Event :=
  match processImgSync opts img with
  | (img₁, none, evs) => (img₁, s, evs)
  | (img₁, some src, evs) =>
    let r := processImgCont env opts img₁ s src
    (r.1, r.2.1, evs ++ r.2.2)

/-- Two scans visiting the same element before its first decode resolves:
both synchronous prefixes run, in order, before either continuation (the
single-threaded run-to-completion semantics makes each prefix atomic); then
the continuations of the scans that passed the marker check run in order. -/
def twoScans (env : Env) (opts : Options) (img : Img) (s : PState) :
    Img × PState × List Event :=
  let r₁ := processImgSync opts img
  let r₂ := processImgSync opts r₁.1
  match r₁.2.1, r₂.2.1 with
  | none, none => (r₂.1, s, r₁.2.2 ++ r₂.2.2)
  | none, some src =>
    let c := processImgCont env opts r₂.1 s src
    (c.1, c.2.1, r₁.2.2 ++ r₂.2.2 ++ c.2.2)
  | some src, none =>
    let c := processImgCont env opts r₂.1 s src
    (c.1, c.2.1, r₁.2.2 ++ r₂.2.2 ++ c.2.2)
  | some src₁, some src₂ =>
    let c₁ := processImgCont env opts r₂.1 s src₁
    let c₂ := processImgCont env opts c₁.1 c₁.2.1 src₂
    (c₂.1, c₂.2.1, r₁.2.2 ++ r₂.2.2 ++ c₁.2.2 ++ c₂.2.2)

end JXLPolyfill

/-- The number of decoder invocations recorded in an event trace. -/
def countDecodes (evs : List Event) : Nat :=
  evs.countP (fun e => decide (e = Event.decodeEv))

/-- Claim C3: a lookup for a url already present in the cache never fetches
and never invokes the decoder: both `getCachedOrDecode` (jxl-polyfill.js) and
`fetchAndDecode` (polyfill-core.js) short-circuit with the cached handle, an
empty event trace, a `cacheHits` increment, and `imagesConverted` unchanged. -/
theorem C3_cache_hit_no_redecode
    (env : Env) (opts : JXLPolyfill.Options) (s : JXLPolyfill.PState)
    (cs : PolyfillCore.CoreState) (w : Bool) (url h hc : List Char)
    (hopt : opts.cacheDecoded = true)
    (hhit : mapGet s.cache url = some h)
    (hchit : mapGet cs.cache url = some hc) :
    JXLPolyfill.getCachedOrDecode env opts s url =
      (Except.ok h, { s with cacheHits := s.cacheHits + 1 }, []) ∧
    PolyfillCore.fetchAndDecode env w cs url =
      (Except.ok hc, { cs with cacheHits := cs.cacheHits + 1 }, []) := by
  constructor
  · unfold JXLPolyfill.getCachedOrDecode
    simp [mapHas, hhit, hopt]
  · unfold PolyfillCore.fetchAndDecode
    simp [mapHas, hchit]

/-- Claim C3, witness: a concrete cache hit on `"a.jxl"`. -/
theorem C3_witness :
    JXLPolyfill.getCachedOrDecode envOk
        { JXLPolyfill.defaultOptions with cacheDecoded := true }
        { cache := [(['a'], ['b'])], imagesConverted := 4, bytesSaved := 0,
          cacheHits := 7 } ['a'] =
      (Except.ok ['b'],
        { cache := [(['a'], ['b'])], imagesConverted := 4, bytesSaved := 0,
          cacheHits := 8 }, []) ∧
    PolyfillCore.fetchAndDecode envOk true
        { cache := [(['a'], ['b'])], imagesConverted := 2, cacheHits := 5 }
        ['a'] =
      (Except.ok ['b'],
        { cache := [(['a'], ['b'])], imagesConverted := 2, cacheHits := 6 },
        []) :=
  C3_cache_hit_no_redecode envOk _ _ _ true ['a'] ['b'] ['b'] rfl rfl rfl

/-! ### Step lemmas for the img pipeline -/

theorem processImgSync_skip_marked (opts : JXLPolyfill.Options)
    (img : JXLPolyfill.Img) (h : img.jxlProcessed = true) :
    JXLPolyfill.processImgSync opts img = (img, none, []) := by
  unfold JXLPolyfill.processImgSync
  by_cases hc : JXLPolyfill.isJxlUrl img.src
  · simp [hc, h]
  · simp [hc]

theorem processImgSync_go (opts : JXLPolyfill.Options)
    (img : JXLPolyfill.Img) (h1 : JXLPolyfill.isJxlUrl img.src = true)
    (h2 : img.jxlProcessed = false) :
    (JXLPolyfill.processImgSync opts img).2.1 = img.src ∧
    (JXLPolyfill.processImgSync opts img).1.src = img.src ∧
    (JXLPolyfill.processImgSync opts img).1.jxlProcessed = true ∧
    (JXLPolyfill.processImgSync opts img).2.2 = JXLPolyfill.logEvents opts := by
  unfold JXLPolyfill.processImgSync
  cases hs : opts.showLoadingState <;> simp [h1, h2, hs]

theorem getCachedOrDecode_miss_fail (env : Env) (opts : JXLPolyfill.Options)
    (s : JXLPolyfill.PState) (url : List Char) (e : String)
    (hm : mapHas s.cache url = false)
    (hfail : (JXLPolyfill.decodeJxlFromUrl env url).1 = Except.error e) :
    JXLPolyfill.getCachedOrDecode env opts s url =
      (Except.error e, s, (JXLPolyfill.decodeJxlFromUrl env url).2) := by
  unfold JXLPolyfill.getCachedOrDecode
  rcases hd : JXLPolyfill.decodeJxlFromUrl env url with ⟨r, evs⟩
  rw [hd] at hfail
  simp only at hfail
  subst hfail
  simp [hm, hd]

theorem processImgCont_decode_count (env : Env) (opts : JXLPolyfill.Options)
    (img : JXLPolyfill.Img) (s : JXLPolyfill.PState) (url : List Char)
    (resp : Response) (hm : mapHas s.cache url = false)
    (hfetch : env.fetch url = Except.ok resp) (hok : resp.ok = true) :
    countDecodes (JXLPolyfill.processImgCont env opts img s url).2.2 = 1 := by
  unfold JXLPolyfill.processImgCont JXLPolyfill.getCachedOrDecode
    JXLPolyfill.decodeJxlFromUrl
  rw [hfetch]
  cases hd : env.decode resp.bytes <;>
    simp [hm, hok, hd, countDecodes, List.countP_append, List.countP_cons,
      List.countP_nil]

/-- Claim C5: the processed marker is set synchronously before the first
suspension point of the pipeline, so when two scans visit the same element
before its first decode resolves, the second scan is stopped by the marker
and the decoder is invoked exactly once for that element. -/
theorem C5_marker_single_dispatch
    (env : Env) (opts : JXLPolyfill.Options) (img : JXLPolyfill.Img)
    (s : JXLPolyfill.PState) (url : List Char) (resp : Response)
    (hsrc : img.src = some url)
    (hcand : JXLPolyfill.isJxlUrl img.src = true)
    (hmark : img.jxlProcessed = false)
    (hmiss : mapGet s.cache url = none)
    (hfetch : env.fetch url = Except.ok resp) (hok : resp.ok = true) :
    (JXLPolyfill.processImgSync opts img).1.jxlProcessed = true ∧
    (JXLPolyfill.processImgSync opts
        (JXLPolyfill.processImgSync opts img).1).2.1 = none ∧
    countDecodes (JXLPolyfill.twoScans env opts img s).2.2 = 1 := by
  obtain ⟨hgo, hsrc1, hmark1, hevs⟩ := processImgSync_go opts img hcand hmark
  have hskip := processImgSync_skip_marked opts
    (JXLPolyfill.processImgSync opts img).1 hmark1
  refine ⟨hmark1, by rw [hskip], ?_⟩
  have hm : mapHas s.cache url = false := by simp [mapHas, hmiss]
  have hgo2 : (JXLPolyfill.processImgSync opts img).2.1 = some url := by
    rw [hgo, hsrc]
  simp only [JXLPolyfill.twoScans, hskip, hgo2]
  simp only [countDecodes, List.countP_append]
  rw [hevs]
  have hcont := processImgCont_decode_count env opts
    (JXLPolyfill.processImgSync opts img).1 s url resp hm hfetch hok
  simp only [countDecodes] at hcont
  rw [hcont]
  cases hv : opts.verbose <;> simp [JXLPolyfill.logEvents, hv]

/-- Claim C5, witness: a concrete element with a fresh `.jxl` source, an empty
cache, and a fetch that succeeds. -/
theorem C5_witness :
    countDecodes (JXLPolyfill.twoScans envOk JXLPolyfill.defaultOptions
      { src := some ['a', '.', 'j', 'x', 'l'], jxlProcessed := false,
        opacity := none }
      { cache := [], imagesConverted := 0, bytesSaved := 0,
        cacheHits := 0 }).2.2 = 1 :=
  (C5_marker_single_dispatch envOk JXLPolyfill.defaultOptions
    { src := some ['a', '.', 'j', 'x', 'l'], jxlProcessed := false,
      opacity := none }
    { cache := [], imagesConverted := 0, bytesSaved := 0, cacheHits := 0 }
    ['a', '.', 'j', 'x', 'l'] { ok := true, status := 200, bytes := [1, 2, 3] }
    rfl (by decide) rfl rfl rfl rfl).2.2

/-- Claim C6: when the fetch or decode step of the pipeline fails, the failure
is caught at the pipeline boundary, logged to the console and swallowed; the
element's `src` attribute is untouched, the cache and every counter are
unchanged, and the processing of any other element from the resulting state is
exactly as it would have been without the failed run. -/
theorem C6_pipeline_failure_swallowed
    (env : Env) (opts : JXLPolyfill.Options) (img : JXLPolyfill.Img)
    (s : JXLPolyfill.PState) (url : List Char) (e : String)
    (hsrc : img.src = some url)
    (hcand : JXLPolyfill.isJxlUrl img.src = true)
    (hmark : img.jxlProcessed = false)
    (hmiss : mapGet s.cache url = none)
    (hfail : (JXLPolyfill.decodeJxlFromUrl env url).1 = Except.error e) :
    (JXLPolyfill.processImgElement env opts img s).1.src = img.src ∧
    (JXLPolyfill.processImgElement env opts img s).1.jxlProcessed = true ∧
    (JXLPolyfill.processImgElement env opts img s).2.1 = s ∧
    Event.consoleError ∈ (JXLPolyfill.processImgElement env opts img s).2.2 ∧
    ∀ img₂ : JXLPolyfill.Img,
      JXLPolyfill.processImgElement env opts img₂
          (JXLPolyfill.processImgElement env opts img s).2.1 =
        JXLPolyfill.processImgElement env opts img₂ s := by
  obtain ⟨hgo, hsrc1, hmark1, hevs⟩ := processImgSync_go opts img hcand hmark
  have hm : mapHas s.cache url = false := by simp [mapHas, hmiss]
  have hcache := getCachedOrDecode_miss_fail env opts s url e hm hfail
  rcases hr : JXLPolyfill.processImgSync opts img with ⟨img₁, go, evs⟩
  rw [hr] at hgo hsrc1 hmark1 hevs
  simp only at hgo hsrc1 hmark1 hevs
  have hcont : JXLPolyfill.processImgCont env opts img₁ s url =
      ((if opts.showLoadingState then { img₁ with opacity := some [] }
        else img₁), s,
        (JXLPolyfill.decodeJxlFromUrl env url).2 ++ [Event.consoleError]) := by
    unfold JXLPolyfill.processImgCont
    rw [hcache]
  have hmain : JXLPolyfill.processImgElement env opts img s =
      ((if opts.showLoadingState then { img₁ with opacity := some [] }
        else img₁), s,
        evs ++ ((JXLPolyfill.decodeJxlFromUrl env url).2 ++
          [Event.consoleError])) := by
    unfold JXLPolyfill.processImgElement
    rw [hr, hgo, hsrc]
    simp [hcont]
  rw [hmain]
  refine ⟨?_, ?_, rfl, by simp, fun img₂ => rfl⟩
  · cases hs : opts.showLoadingState <;> simp [hs, hsrc1]
  · cases hs : opts.showLoadingState <;> simp [hs, hmark1]

/-- An environment whose fetch always rejects. -/
def envFetchFail : Env :=
  { fetch := fun _ => Except.error "network error",
    decode := fun b => Except.ok b,
    createObjectURL := fun _ => ['b', 'l', 'o', 'b'],
    nativeSupport := false }

/-- Claim C6, witness: a concrete element whose fetch rejects; its `src` and
the engine state survive unchanged. -/
theorem C6_witness :
    (JXLPolyfill.processImgElement envFetchFail JXLPolyfill.defaultOptions
      { src := some ['a', '.', 'j', 'x', 'l'], jxlProcessed := false,
        opacity := none }
      { cache := [], imagesConverted := 0, bytesSaved := 0,
        cacheHits := 0 }).1.src = some ['a', '.', 'j', 'x', 'l'] ∧
    (JXLPolyfill.processImgElement envFetchFail JXLPolyfill.defaultOptions
      { src := some ['a', '.', 'j', 'x', 'l'], jxlProcessed := false,
        opacity := none }
      { cache := [], imagesConverted := 0, bytesSaved := 0,
        cacheHits := 0 }).2.1 =
      { cache := [], imagesConverted := 0, bytesSaved := 0, cacheHits := 0 } :=
  ⟨(C6_pipeline_failure_swallowed envFetchFail JXLPolyfill.defaultOptions
      { src := some ['a', '.', 'j', 'x', 'l'], jxlProcessed := false,
        opacity := none }
      { cache := [], imagesConverted := 0, bytesSaved := 0, cacheHits := 0 }
      ['a', '.', 'j', 'x', 'l'] "network error" rfl (by decide) rfl rfl
      rfl).1,
   (C6_pipeline_failure_swallowed envFetchFail JXLPolyfill.defaultOptions
      { src := some ['a', '.', 'j', 'x', 'l'], jxlProcessed := false,
        opacity := none }
      { cache := [], imagesConverted := 0, bytesSaved := 0, cacheHits := 0 }
      ['a', '.', 'j', 'x', 'l'] "network error" rfl (by decide) rfl rfl
      rfl).2.2.1⟩

/-! ## Change-notification dispatch and startup -/

/-- DOM tag names the observer callbacks compare against. -/
inductive Tag where
  | IMG | SOURCE | IMAGE | FEIMAGE | OTHER
deriving DecidableEq

/-- Which per-reference processor an attribute mutation re-runs. -/
inductive Reproc where
  | img | source | svg | background
deriving DecidableEq

/-- A DOM element as seen by the attribute-mutation handlers: its tag name and
its two idempotency markers (`data-jxl-processed`, `data-jxl-bg-processed`). -/
structure Element where
  tag : Tag
  jxlProcessed : Bool
  jxlBgProcessed : Bool
deriving DecidableEq

/-- The watched attribute name `src`. -/
def attrSrc : List Char := ['s', 'r', 'c']

/-- The watched attribute name `srcset`. -/
def attrSrcset : List Char := ['s', 'r', 'c', 's', 'e', 't']

/-- The watched attribute name `href`. -/
def attrHref : List Char := ['h', 'r', 'e', 'f']

/-- The watched attribute name `xlink:href`. -/
def attrXlinkHref : List Char :=
  ['x', 'l', 'i', 'n', 'k', ':', 'h', 'r', 'e', 'f']

/-- The watched attribute name `style`. -/
def attrStyle : List Char := ['s', 't', 'y', 'l', 'e']

namespace JXLPolyfill

/-- From jxl-polyfill.js, the attribute branch of the MutationObserver
callback (lines 392-410): an `(attributeName, tagName)` pair clears a marker
and re-runs a processor only for the listed combinations — `src` on `IMG`,
`srcset` on `SOURCE`, `href`/`xlink:href` on `IMAGE`/`FEIMAGE`, and `style`
(background marker) on any element. -/
def handleAttributeMutation (t : Element) (attrName : List Char) :
    Element × Option Reproc :=
  if attrName = attrSrc ∧ t.tag = Tag.IMG then
    ({ t with jxlProcessed := false }, some Reproc.img)
  else if attrName = attrSrcset ∧ t.tag = Tag.SOURCE then
    ({ t with jxlProcessed := false }, some Reproc.source)
  else if (attrName = attrHref ∨ attrName = attrXlinkHref) ∧
      (t.tag = Tag.IMAGE ∨ t.tag = Tag.FEIMAGE) then
    ({ t with jxlProcessed := false }, some Reproc.svg)
  else if attrName = attrStyle then
    ({ t with jxlBgProcessed := false }, some Reproc.background)
  else (t, none)

end JXLPolyfill

namespace PolyfillCore

/-- From src/polyfill-core.js, the attribute branch of the observer callback
(lines 132-138): only a `src` change on an `IMG` clears the marker and re-runs
`processImg`; every other watched attribute is ignored. -/
def handleAttributeMutation (t : Element) (attrName : List Char) :
    Element × Option Reproc :=
  if attrName = attrSrc ∧ t.tag = Tag.IMG then
    ({ t with jxlProcessed := false }, some Reproc.img)
  else (t, none)

end PolyfillCore

/-- An already-processed `IMG` element. -/
def processedImg : Element :=
  { tag := Tag.IMG, jxlProcessed := true, jxlBgProcessed := false }

/-- Claim C7, counterexample: a `srcset` change — an attribute in the watched
set — on an already-processed `IMG` element clears no marker and re-runs
nothing, in both observer implementations, contradicting the claim that any
watched attribute change clears the node's marker and re-runs the pipeline. -/
theorem C7_counterexample :
    JXLPolyfill.handleAttributeMutation processedImg attrSrcset =
      (processedImg, none) ∧
    PolyfillCore.handleAttributeMutation processedImg attrSrcset =
      (processedImg, none) ∧
    processedImg.jxlProcessed = true := by
  refine ⟨by decide, by decide, rfl⟩

/-- Claim C7 (amended): an attribute change clears a marker and re-runs a
pipeline only when the attribute matches the node's kind — in jxl-polyfill.js:
`src` on `IMG`, `srcset` on `SOURCE`, `href`/`xlink:href` on
`IMAGE`/`FEIMAGE` (clearing the processed marker and re-running the matching
processor), and `style` on any element (clearing the background marker and
re-running the background processor); every other combination leaves the
element untouched and runs nothing.  In polyfill-core.js only a `src` change
on an `IMG` triggers reprocessing. -/
theorem C7_amended_attribute_dispatch :
    (∀ t : Element, t.tag = Tag.IMG →
      JXLPolyfill.handleAttributeMutation t attrSrc =
        ({ t with jxlProcessed := false }, some Reproc.img)) ∧
    (∀ t : Element, t.tag = Tag.SOURCE →
      JXLPolyfill.handleAttributeMutation t attrSrcset =
        ({ t with jxlProcessed := false }, some Reproc.source)) ∧
    (∀ (t : Element) (a : List Char), (a = attrHref ∨ a = attrXlinkHref) →
      (t.tag = Tag.IMAGE ∨ t.tag = Tag.FEIMAGE) →
      JXLPolyfill.handleAttributeMutation t a =
        ({ t with jxlProcessed := false }, some Reproc.svg)) ∧
    (∀ t : Element,
      JXLPolyfill.handleAttributeMutation t attrStyle =
        ({ t with jxlBgProcessed := false }, some Reproc.background)) ∧
    (∀ (t : Element) (a : List Char),
      ¬((a = attrSrc ∧ t.tag = Tag.IMG) ∨
        (a = attrSrcset ∧ t.tag = Tag.SOURCE) ∨
        ((a = attrHref ∨ a = attrXlinkHref) ∧
          (t.tag = Tag.IMAGE ∨ t.tag = Tag.FEIMAGE)) ∨
        a = attrStyle) →
      JXLPolyfill.handleAttributeMutation t a = (t, none)) ∧
    (∀ t : Element, t.tag = Tag.IMG →
      PolyfillCore.handleAttributeMutation t attrSrc =
        ({ t with jxlProcessed := false }, some Reproc.img)) ∧
    (∀ (t : Element) (a : List Char), ¬(a = attrSrc ∧ t.tag = Tag.IMG) →
      PolyfillCore.handleAttributeMutation t a = (t, none)) := by
  refine ⟨?_, ?_, ?_, ?_, ?_, ?_, ?_⟩
  · intro t h
    unfold JXLPolyfill.handleAttributeMutation
    rw [if_pos ⟨rfl, h⟩]
  · intro t h
    unfold JXLPolyfill.handleAttributeMutation
    rw [if_neg (by rintro ⟨h1, -⟩; exact absurd h1 (by decide)),
      if_pos ⟨rfl, h⟩]
  · intro t a ha ht
    unfold JXLPolyfill.handleAttributeMutation
    rw [if_neg (by rintro ⟨h1, -⟩; rcases ha with h | h <;> subst h <;>
        exact absurd h1 (by decide)),
      if_neg (by rintro ⟨h1, -⟩; rcases ha with h | h <;> subst h <;>
        exact absurd h1 (by decide)),
      if_pos ⟨ha, ht⟩]
  · intro t
    unfold JXLPolyfill.handleAttributeMutation
    rw [if_neg (by rintro ⟨h1, -⟩; exact absurd h1 (by decide)),
      if_neg (by rintro ⟨h1, -⟩; exact absurd h1 (by decide)),
      if_neg (by rintro ⟨h1 | h1, -⟩ <;> exact absurd h1 (by decide)),
      if_pos rfl]
  · intro t a h
    simp only [not_or] at h
    unfold JXLPolyfill.handleAttributeMutation
    rw [if_neg h.1, if_neg h.2.1, if_neg h.2.2.1, if_neg h.2.2.2]
  · intro t h
    unfold PolyfillCore.handleAttributeMutation
    rw [if_pos ⟨rfl, h⟩]
  · intro t a h
    unfold PolyfillCore.handleAttributeMutation
    rw [if_neg h]

/-- Claim C7 amended theorem, witness: a `src` change on an `IMG` clears the
marker and re-runs the img pipeline; a `src` change on a `SOURCE` does
nothing. -/
theorem C7_amended_witness :
    JXLPolyfill.handleAttributeMutation processedImg attrSrc =
      ({ tag := Tag.IMG, jxlProcessed := false, jxlBgProcessed := false },
        some Reproc.img) ∧
    JXLPolyfill.handleAttributeMutation
        { tag := Tag.SOURCE, jxlProcessed := true, jxlBgProcessed := false }
        attrSrc =
      ({ tag := Tag.SOURCE, jxlProcessed := true, jxlBgProcessed := false },
        none) :=
  ⟨C7_amended_attribute_dispatch.1 processedImg rfl,
   C7_amended_attribute_dispatch.2.2.2.2.1
     { tag := Tag.SOURCE, jxlProcessed := true, jxlBgProcessed := false }
     attrSrc (by decide)⟩

/-! ## Startup: native-support probe short-circuit -/

namespace PolyfillCore

/-- From src/polyfill-core.js, `processImg` (lines 49-61): the core img
pipeline — candidate and marker checks, set the marker, fetch-and-decode,
rewrite `src` on success, log and swallow on failure. -/
def processImg (env : Env) (w : Bool) (img : JXLPolyfill.Img)
    (s : CoreState) : JXLPolyfill.Img × CoreState × List Event :=
  if !isJxlUrl img.src || img.jxlProcessed then (img, s, [])
  else
    let img₁ := { img with jxlProcessed := true }
    match img.src with
    | none => (img₁, s, [])
    | some src =>
      match fetchAndDecode env w s src with
      | (Except.ok pngUrl, s₁, evs) =>
        ({ img₁ with src := some pngUrl }, s₁, evs)
      | (Except.error _, s₁, evs) => (img₁, s₁, evs ++ [Event.consoleError])

/-- From src/polyfill-core.js, `processAll` (lines 109-114), restricted in
this embedding to the `<img>` pass (the document model carries only img
elements; the other three reference kinds follow the same pipeline shape). -/
def processAll (env : Env) (w : Bool) (doc : List JXLPolyfill.Img)
    (s : CoreState) : List JXLPolyfill.Img × CoreState × List Event :=
  match doc with
  | [] => ([], s, [])
  | img :: rest =>
    let r := processImg env w img s
    let rr := processAll env w rest r.2.1
    (r.1 :: rr.1, rr.2.1, r.2.2 ++ rr.2.2)

/-- From src/polyfill-core.js, `startPolyfill` (lines 159-169): consult the
native-support probe (`checkNativeSupport`, modelled by the environment's
probe result); when native support is present, log and return before any scan
or observer installation; otherwise log, scan the document and install the
observer.  The third component reports whether the observer was installed. -/
def startPolyfill (env : Env) (w : Bool) (doc : List JXLPolyfill.Img)
    (s : CoreState) :
    List JXLPolyfill.Img × CoreState × Bool × List Event :=
  if env.nativeSupport then (doc, s, false, [Event.consoleLog])
  else
    let r := processAll env w doc s
    (r.1, r.2.1, true, Event.consoleLog :: r.2.2)

end PolyfillCore

namespace JXLPolyfill

/-- A `JXLPolyfill` instance: its options and the mutable fields of the class
(lines 107-127), with the observer subscription and the Image-constructor
patch modelled as booleans. -/
structure Instance where
  opts : Options
  state : PState
  started : Bool
  hasNativeSupport : Option Bool
  observerOn : Bool
  imagePatched : Bool
deriving DecidableEq

/-- From jxl-polyfill.js, `processExistingElements` (lines 332-354),
restricted in this embedding to the `<img>` pass. -/
def processExistingElements (env : Env) (opts : Options)
    (doc : List Img) (s : PState) : List Img × PState × List Event :=
  match doc with
  | [] => ([], s, [])
  | img :: rest =>
    let r := processImgElement env opts img s
    let rr := processExistingElements env opts rest r.2.1
    (r.1 :: rr.1, rr.2.1, r.2.2 ++ rr.2.2)

/-- From jxl-polyfill.js, `start` (lines 140-167): no-op when already started;
record the native-support probe result and stop there when it is true;
otherwise initialize WASM, patch the Image constructor when configured, scan
the document, install the observer and mark the instance started. -/
def start (env : Env) (inst : Instance) (doc : List Img) :
    Instance × List Img × List Event :=
  if inst.started then (inst, doc, [])
  else
    let inst₁ := { inst with hasNativeSupport := some env.nativeSupport }
    if env.nativeSupport then (inst₁, doc, logEvents inst.opts)
    else
      let inst₂ :=
        if inst₁.opts.patchImageConstructor then
          { inst₁ with imagePatched := true }
        else inst₁
      let r := processExistingElements env inst.opts doc inst.state
      ({ inst₂ with state := r.2.1, observerOn := true, started := true },
        r.1, logEvents inst.opts ++ r.2.2 ++ logEvents inst.opts)

end JXLPolyfill

/-- Claim C8: when the native-support probe resolves true, startup returns
before doing anything: no document scan (the document is returned as-is and
the cache and counters are unchanged), no observer subscription, zero fetches
and zero decoder invocations — in both the polyfill-core `startPolyfill` and
the class `start` (which only records the probe result). -/
theorem C8_native_support_short_circuit
    (env : Env) (w : Bool) (doc : List JXLPolyfill.Img)
    (cs : PolyfillCore.CoreState) (inst : JXLPolyfill.Instance)
    (hn : env.nativeSupport = true) (hs : inst.started = false) :
    PolyfillCore.startPolyfill env w doc cs =
      (doc, cs, false, [Event.consoleLog]) ∧
    JXLPolyfill.start env inst doc =
      ({ inst with hasNativeSupport := some true }, doc,
        JXLPolyfill.logEvents inst.opts) ∧
    countDecodes [Event.consoleLog] = 0 ∧
    countDecodes (JXLPolyfill.logEvents inst.opts) = 0 := by
  refine ⟨?_, ?_, by decide, ?_⟩
  · unfold PolyfillCore.startPolyfill
    rw [if_pos (by rw [hn])]
  · unfold JXLPolyfill.start
    rw [if_neg (by rw [hs]; exact Bool.false_ne_true), hn]
    simp
  · cases hv : inst.opts.verbose <;>
      simp [JXLPolyfill.logEvents, hv, countDecodes]

/-- An environment whose native-support probe resolves true. -/
def envNative : Env :=
  { fetch := fun _ => Except.ok { ok := true, status := 200, bytes := [1, 2, 3] },
    decode := fun b => Except.ok b,
    createObjectURL := fun _ => ['b', 'l', 'o', 'b'],
    nativeSupport := true }

/-- A fresh, not-yet-started instance with the default options. -/
def freshInstance : JXLPolyfill.Instance :=
  { opts := JXLPolyfill.defaultOptions,
    state := { cache := [], imagesConverted := 0, bytesSaved := 0,
               cacheHits := 0 },
    started := false, hasNativeSupport := none, observerOn := false,
    imagePatched := false }

/-- Claim C8, witness: with native support present, a fresh instance and a
one-img document come back untouched, no observer is installed, and no decode
is recorded. -/
theorem C8_witness :
    PolyfillCore.startPolyfill envNative true
        [{ src := some ['a', '.', 'j', 'x', 'l'], jxlProcessed := false,
           opacity := none }]
        { cache := [], imagesConverted := 0, cacheHits := 0 } =
      ([{ src := some ['a', '.', 'j', 'x', 'l'], jxlProcessed := false,
          opacity := none }],
        { cache := [], imagesConverted := 0, cacheHits := 0 }, false,
        [Event.consoleLog]) ∧
    JXLPolyfill.start envNative freshInstance
        [{ src := some ['a', '.', 'j', 'x', 'l'], jxlProcessed := false,
           opacity := none }] =
      ({ freshInstance with hasNativeSupport := some true },
        [{ src := some ['a', '.', 'j', 'x', 'l'], jxlProcessed := false,
           opacity := none }],
        JXLPolyfill.logEvents JXLPolyfill.defaultOptions) :=
  ⟨(C8_native_support_short_circuit envNative true _ _ freshInstance rfl
      rfl).1,
   (C8_native_support_short_circuit envNative true
      [{ src := some ['a', '.', 'j', 'x', 'l'], jxlProcessed := false,
         opacity := none }]
      { cache := [], imagesConverted := 0, cacheHits := 0 } freshInstance rfl
      rfl).2.1⟩

/-! ## Background-image url extraction

A specialized backtracking matcher for the regex
`url\(['"]?([^'"()]+\.jxl[^'"()]*)['"]?\)` with the `i` flag
(jxl-polyfill.js line 283): leftmost start wins, and at a given start the
alternatives are explored in the engine's priority order (greedy quantifiers
longest-first, the optional quote consumed-first). -/

/-- The apostrophe character (code point 39). -/
def squoteChar : Char := Char.ofNat 39

/-- The character class `[^'"()]` of the background regex. -/
def isBgUrlChar (c : Char) : Bool :=
  !(c == squoteChar || c == '"' || c == '(' || c == ')')

/-- Case-insensitive literal match: consume `pat.length` characters whose
ASCII lowering equals `pat` (given in lower case), returning the consumed
characters in their original case together with the rest. -/
def ciStrip : List Char → List Char → Option (List Char × List Char)
  | [], s => some ([], s)
  | _ :: _, [] => none
  | p :: ps, c :: cs =>
    if c.toLower = p then
      match ciStrip ps cs with
      | some (t, r) => some (c :: t, r)
      | none => none
    else none

/-- All splits of a (possibly empty) prefix drawn from the `[^'"()]` class,
longest first — the exploration order of a greedy `*`. -/
def bgStarSplits (s : List Char) : List (List Char × List Char) :=
  let m := s.takeWhile isBgUrlChar
  let r := s.drop m.length
  (List.range (m.length + 1)).reverse.map (fun k => (m.take k, m.drop k ++ r))

/-- The nonempty such splits, longest first — a greedy `+`. -/
def bgPlusSplits (s : List Char) : List (List Char × List Char) :=
  (bgStarSplits s).filter (fun p => !p.1.isEmpty)

/-- The branches of a greedy `['"]?`: the quote consumed first when present,
then the empty alternative. -/
def bgQuoteSplits (s : List Char) : List (List Char × List Char) :=
  match s with
  | c :: cs =>
    if c == squoteChar || c == '"' then [([c], cs), ([], c :: cs)]
    else [([], c :: cs)]
  | [] => [([], [])]

/-- All captures of the background regex anchored at the head of `s`, in
backtracking priority order. -/
def bgCapturesAt (s : List Char) : List (List Char) :=
  match ciStrip ['u', 'r', 'l', '('] s with
  | none => []
  | some (_, r0) =>
    (bgQuoteSplits r0).flatMap (fun q1 =>
      (bgPlusSplits q1.2).flatMap (fun a =>
        match ciStrip extJxl a.2 with
        | none => []
        | some (e, r3) =>
          (bgStarSplits r3).flatMap (fun b =>
            (bgQuoteSplits b.2).flatMap (fun q2 =>
              match q2.2 with
              | c :: _ => if c == ')' then [a.1 ++ e ++ b.1] else []
              | [] => []))))

/-- `String.prototype.match` with the background regex: the group-1 capture of
the leftmost, highest-priority match. -/
def bgMatchCapture : List Char → Option (List Char)
  | [] => none
  | c :: cs =>
    match (bgCapturesAt (c :: cs)).head? with
    | some cap => some cap
    | none => bgMatchCapture cs

namespace JXLPolyfill

/-- From jxl-polyfill.js, `processBackgroundImage` (lines 277-288), the
extraction step the spec calls `extractFromBackgroundValue`: reject a falsy or
`none` computed value, then return the first capture of the background
regex. -/
def extractFromBackgroundValue (bg : Option (List Char)) :
    Option (List Char) :=
  match bg with
  | none => none
  | some v =>
    if v.isEmpty then none
    else if v = ['n', 'o', 'n', 'e'] then none
    else bgMatchCapture v

end JXLPolyfill

/-- Claim C9, counterexample: the computed value `url(a.jxlx)` yields the
capture `a.jxlx`, for which `isCandidate` is false — the extractor performs no
independent candidate check and its trailing `[^'"()]*` admits characters
after the extension that `isCandidate` rejects. -/
theorem C9_counterexample :
    JXLPolyfill.extractFromBackgroundValue
        (some ['u', 'r', 'l', '(', 'a', '.', 'j', 'x', 'l', 'x', ')']) =
      some ['a', '.', 'j', 'x', 'l', 'x'] ∧
    JXLPolyfill.isJxlUrl (some ['a', '.', 'j', 'x', 'l', 'x']) = false := by
  constructor
  · decide
  · decide

theorem ciStrip_sound (pat : List Char) :
    ∀ s t r : List Char, ciStrip pat s = some (t, r) →
      jsToLower t = pat ∧ s = t ++ r := by
  induction pat with
  | nil =>
    intro s t r h
    simp only [ciStrip, Option.some.injEq, Prod.mk.injEq] at h
    obtain ⟨h1, h2⟩ := h
    subst h1; subst h2
    exact ⟨rfl, rfl⟩
  | cons p ps ih =>
    intro s t r h
    cases s with
    | nil => simp [ciStrip] at h
    | cons c cs =>
      simp only [ciStrip] at h
      by_cases hc : c.toLower = p
      · rw [if_pos hc] at h
        cases hm : ciStrip ps cs with
        | none => rw [hm] at h; cases h
        | some pr =>
          obtain ⟨t₁, r₁⟩ := pr
          rw [hm] at h
          simp only [Option.some.injEq, Prod.mk.injEq] at h
          obtain ⟨h1, h2⟩ := h
          subst h2
          obtain ⟨hl, hs⟩ := ih cs t₁ r₁ hm
          subst h1
          refine ⟨?_, by simp [hs]⟩
          simp [jsToLower] at hl ⊢
          exact ⟨hc, hl⟩
      · rw [if_neg hc] at h; cases h

theorem bgCapturesAt_shape (s cap : List Char) (h : cap ∈ bgCapturesAt s) :
    ∃ a e b, cap = a ++ e ++ b ∧ jsToLower e = extJxl := by
  unfold bgCapturesAt at h
  cases h0 : ciStrip ['u', 'r', 'l', '('] s with
  | none => rw [h0] at h; cases h
  | some pr0 =>
    obtain ⟨t0, r0⟩ := pr0
    rw [h0] at h
    simp only [List.mem_flatMap] at h
    obtain ⟨q1, hq1, h⟩ := h
    obtain ⟨a, ha, h⟩ := h
    cases h2 : ciStrip extJxl a.2 with
    | none => rw [h2] at h; cases h
    | some pr2 =>
      obtain ⟨e, r3⟩ := pr2
      rw [h2] at h
      simp only [List.mem_flatMap] at h
      obtain ⟨b, hb, h⟩ := h
      obtain ⟨q2, hq2, h⟩ := h
      have he := (ciStrip_sound extJxl a.2 e r3 h2).1
      cases hq : q2.2 with
      | nil => rw [hq] at h; cases h
      | cons c rest =>
        rw [hq] at h
        cases hc : c == ')'
        · simp [hc] at h
        · simp [hc] at h
          exact ⟨a.1, e, b.1, by simp [h], he⟩

theorem bgMatchCapture_mem (s u : List Char) (h : bgMatchCapture s = some u) :
    ∃ t, u ∈ bgCapturesAt t := by
  induction s with
  | nil => simp [bgMatchCapture] at h
  | cons c cs ih =>
    unfold bgMatchCapture at h
    cases hh : (bgCapturesAt (c :: cs)).head? with
    | some cap =>
      rw [hh] at h
      simp only [Option.some.injEq] at h
      subst h
      refine ⟨c :: cs, ?_⟩
      cases hlist : bgCapturesAt (c :: cs) with
      | nil => rw [hlist] at hh; cases hh
      | cons x xs =>
        rw [hlist] at hh
        simp only [List.head?_cons, Option.some.injEq] at hh
        subst hh
        exact List.mem_cons_self _ _
    | none =>
      rw [hh] at h
      exact ih h

/-- Claim C9 (amended): `extractFromBackgroundValue` returns the group-1
capture of the `url(...)` pattern; every returned url contains the extension
`.jxl` case-insensitively, but it need not independently satisfy
`isCandidate` — the trailing `[^'"()]*` of the pattern admits characters
right after the extension (e.g. `url(a.jxlx)` yields `a.jxlx`), and no
isCandidate check is applied to the capture. -/
theorem C9_amended_extract_contains_ext (bg : Option (List Char))
    (u : List Char)
    (h : JXLPolyfill.extractFromBackgroundValue bg = some u) :
    charsIncludes (jsToLower u) extJxl = true := by
  obtain ⟨v, rfl⟩ : ∃ v, bg = some v := by
    cases bg with
    | none => cases h
    | some v => exact ⟨v, rfl⟩
  simp only [JXLPolyfill.extractFromBackgroundValue] at h
  split_ifs at h
  have hm : bgMatchCapture v = some u := h
  obtain ⟨t, ht⟩ := bgMatchCapture_mem v u hm
  obtain ⟨a, e, b, hu, he⟩ := bgCapturesAt_shape t u ht
  subst hu
  rw [charsIncludes_iff]
  exact ⟨jsToLower a, jsToLower b, by simp [jsToLower, ← he]⟩

/-- Claim C9 amended theorem, witness: extraction from `url(a.jxl)` yields a
capture containing the extension. -/
theorem C9_amended_witness :
    charsIncludes (jsToLower ['a', '.', 'j', 'x', 'l']) extJxl = true :=
  C9_amended_extract_contains_ext
    (some ['u', 'r', 'l', '(', 'a', '.', 'j', 'x', 'l', ')'])
    ['a', '.', 'j', 'x', 'l'] (by decide)
